import Mathlib

/-!
Verification development for the logcli record pipeline: record validation
(reader.validate_obj), the generator filters (filters.py), the streaming
aggregator (metrics.StatsAggregator) and the alert evaluator
(handlers/watch._eval_alerts), shallowly embedded as executable Lean
definitions over association-list JSON objects.

Modelling conventions:
- a decoded JSON value is a `Value`; a decoded JSON object (Python dict)
  is an insertion-ordered association list `Obj` with first-match lookup;
- a parsed timestamp (Python datetime) is an `Int` instant, totally ordered
  exactly as datetimes are;
- Python ints/floats are modelled as rationals;
- `datetime.fromisoformat` is Python standard library, external to this
  repository; the embedding takes the parser as an explicit argument
  `parse : String → Option Int` (`none` models `ValueError`); calling it on
  a value that is not a string raises `TypeError` in Python, modelled by
  the `VErr.typeError` outcome.
-/

/-- A decoded JSON field value, or a timestamp already normalized to a
parsed instant (`dt`). -/
inductive Value where
  | str (s : String)
  | num (q : ℚ)
  | bool (b : Bool)
  | null
  | dt (t : Int)
  deriving DecidableEq, Repr

/-- A decoded JSON object: insertion-ordered key/value pairs (Python dict). -/
abbrev Obj := List (String × Value)

/-- Python `obj.get(k)` / `k in obj`: first binding of `k`, if any. -/
def dictGet (obj : Obj) (k : String) : Option Value :=
  match obj with
  | [] => none
  | (k', v) :: rest => if k' = k then some v else dictGet rest k

/-- Python `obj[k] = v`: replace the value at `k` in place (dicts keep the
original key position), or append a new binding. -/
def dictSet (obj : Obj) (k : String) (v : Value) : Obj :=
  match obj with
  | [] => [(k, v)]
  | (k', v') :: rest => if k' = k then (k, v) :: rest else (k', v') :: dictSet rest k v

/-- Python `str(value)` as applied by the field filters (rendering details
of non-string values are irrelevant to every claim, which only ever
filters string-valued fields). -/
def strOfValue : Value → String
  | .str s => s
  | .num q => toString q
  | .bool b => if b then "True" else "False"
  | .null => "None"
  | .dt t => toString t

/-- `reader.REQUIRED_FIELDS`. The source holds these in a Python set, whose
iteration order is unspecified; the claims settled here depend only on
which failures are collected, never on their order, so a fixed order is
used. -/
def REQUIRED_FIELDS : List String := ["severity", "timestamp", "service", "message"]

/-- One field-level validation failure, as collected by `validate_obj`:
`KeyError` for a missing required field, `ValueError` for an unparseable
timestamp string. -/
inductive VFail where
  | missing (field : String)
  | invalidTimestamp
  deriving DecidableEq, Repr

/-- How `validate_obj` can fail: the documented `ExceptionGroup` carrying
the collected field failures, or an uncaught `TypeError` escaping from
`datetime.fromisoformat` when the timestamp is present but not a string
(only `ValueError` is caught in the source). -/
inductive VErr where
  | group (fails : List VFail)
  | typeError
  deriving DecidableEq, Repr

/-- The field loop of `reader.validate_obj`: walks the required fields,
collecting a `KeyError` per missing field; on a present `timestamp` it
parses and replaces the value in place (string case), collects a
`ValueError` (unparseable string), or raises `TypeError` (non-string),
which aborts the whole call. -/
def validateFields (parse : String → Option Int) :
    List String → List VFail → Obj → Except VErr (List VFail × Obj)
  | [], errs, obj => .ok (errs, obj)
  | f :: fs, errs, obj =>
    match dictGet obj f with
    | none => validateFields parse fs (errs ++ [.missing f]) obj
    | some v =>
      if f = "timestamp" then
        match v with
        | .str s =>
          match parse s with
          | some t => validateFields parse fs errs (dictSet obj "timestamp" (.dt t))
          | none => validateFields parse fs (errs ++ [.invalidTimestamp]) obj
        | _ => .error .typeError
      else validateFields parse fs errs obj

/-- `reader.validate_obj`: returns the object (timestamp normalized) on
success, raises the grouped failures when any were collected, or lets a
`TypeError` from a non-string timestamp escape. -/
def validate_obj (parse : String → Option Int) (obj : Obj) : Except VErr Obj :=
  match validateFields parse REQUIRED_FIELDS [] obj with
  | .error e => .error e
  | .ok (errs, obj') => if errs.isEmpty then .ok obj' else .error (.group errs)

/-- A record that has passed validation: all four required fields present
and the timestamp already a parsed instant. -/
def ValidatedRow (row : Obj) : Bool :=
  (match dictGet row "timestamp" with | some (.dt _) => true | _ => false)
    && (dictGet row "severity").isSome
    && (dictGet row "service").isSome
    && (dictGet row "message").isSome

/-- Python `str.lower()`, modelled characterwise over the characters of
the string. -/
def pyLower (s : String) : String := ⟨s.data.map Char.toLower⟩

/-- `filters._filter_by_field`: with an empty value set the input passes
through unchanged; otherwise a row passes iff its field is present,
non-null (Python `row.get` yields `None` both for an absent key and a JSON
null) and its lowercased string form is among the values. -/
def filter_by_field (data : List Obj) (values : List String) (field : String) : List Obj :=
  if values.isEmpty then data
  else data.filter fun row =>
    match dictGet row field with
    | none => false
    | some .null => false
    | some v => values.contains (pyLower (strOfValue v))

/-- `filters.filter_by_service`. -/
def filter_by_service (data : List Obj) (services : List String) : List Obj :=
  filter_by_field data services "service"

/-- `filters.filter_by_severity`. -/
def filter_by_severity (data : List Obj) (severities : List String) : List Obj :=
  filter_by_field data severities "severity"

/-- `filters.filter_since`: with no bound (Python falsy timestamp) the input
passes through; otherwise a row passes iff its timestamp is present and
`>=` the bound. Rows whose present timestamp is not a parsed instant would
raise `TypeError` at the Python comparison; validated rows (the documented
domain: readers convert ISO strings to datetimes) never do, and the model
drops such rows. -/
def filter_since (data : List Obj) (timestamp : Option Int) : List Obj :=
  match timestamp with
  | none => data
  | some ts => data.filter fun row =>
      match dictGet row "timestamp" with
      | some (.dt t) => decide (t ≥ ts)
      | _ => false

/-- `filters.filter_until`: mirror image of `filter_since` with an
inclusive upper bound. -/
def filter_until (data : List Obj) (timestamp : Option Int) : List Obj :=
  match timestamp with
  | none => data
  | some ts => data.filter fun row =>
      match dictGet row "timestamp" with
      | some (.dt t) => decide (t ≤ ts)
      | _ => false

/-- The four filter stages of the pipeline. -/
inductive Stage where
  | service
  | severity
  | since
  | until'
  deriving DecidableEq, Repr

/-- The criteria the four stages draw from (spec `FilterCriteria`): the
already-lowercased service and severity sets and the optional time bounds. -/
structure FilterCriteria where
  services : List String
  severities : List String
  since : Option Int
  until' : Option Int
  deriving DecidableEq, Repr

/-- Run one filter stage over a row stream. -/
def applyStage (c : FilterCriteria) (s : Stage) (data : List Obj) : List Obj :=
  match s with
  | .service => filter_by_service data c.services
  | .severity => filter_by_severity data c.severities
  | .since => filter_since data c.since
  | .until' => filter_until data c.until'

/-- Chain filter stages left to right, as the handlers do. -/
def applyStages (c : FilterCriteria) (stages : List Stage) (data : List Obj) : List Obj :=
  stages.foldl (fun d s => applyStage c s d) data

/-- The pass/drop decision each stage makes for one row, read off from the
stage definitions. -/
def stagePred (c : FilterCriteria) (s : Stage) (row : Obj) : Bool :=
  match s with
  | .service =>
    if c.services.isEmpty then true
    else match dictGet row "service" with
      | none => false
      | some .null => false
      | some v => c.services.contains (pyLower (strOfValue v))
  | .severity =>
    if c.severities.isEmpty then true
    else match dictGet row "severity" with
      | none => false
      | some .null => false
      | some v => c.severities.contains (pyLower (strOfValue v))
  | .since =>
    match c.since with
    | none => true
    | some ts => match dictGet row "timestamp" with
      | some (.dt t) => decide (t ≥ ts)
      | _ => false
  | .until' =>
    match c.until' with
    | none => true
    | some ts => match dictGet row "timestamp" with
      | some (.dt t) => decide (t ≤ ts)
      | _ => false

/-- The running state of `metrics.StatsAggregator` (its `__init__`
fields). Count maps are insertion-ordered association lists, like the
Python dicts they model. -/
structure StatsAggregator where
  total : Nat
  by_severity : List (String × Nat)
  by_service : List (String × Nat)
  latency_count : Nat
  latency_min : Option ℚ
  latency_max : Option ℚ
  latency_sum : ℚ
  start_time : Option Int
  end_time : Option Int
  deriving DecidableEq, Repr

/-- `StatsAggregator.__init__`: empty statistics. -/
def initAgg : StatsAggregator :=
  { total := 0, by_severity := [], by_service := [], latency_count := 0
    latency_min := none, latency_max := none, latency_sum := 0
    start_time := none, end_time := none }

/-- Python `m[k] = m.get(k, 0) + 1` on a count dict. -/
def dictIncr (m : List (String × Nat)) (k : String) : List (String × Nat) :=
  match m with
  | [] => [(k, 1)]
  | (k', v) :: rest => if k' = k then (k, v + 1) :: rest else (k', v) :: dictIncr rest k

/-- Count lookup, `m.get(k)`. -/
def countGet (m : List (String × Nat)) (k : String) : Option Nat :=
  match m with
  | [] => none
  | (k', v) :: rest => if k' = k then some v else countGet rest k

/-- The record timestamp as the aggregator compares it: a parsed instant,
or nothing when the key is absent. A present non-instant value would make
the Python min/max comparison raise `TypeError` once a previous instant is
stored; validated records always carry an instant. -/
def rowInstant (row : Obj) : Option Int :=
  match dictGet row "timestamp" with
  | some (.dt t) => some t
  | _ => none

/-- The latency value the aggregator accumulates:
`isinstance(latency, (int, float))`. A Python bool is an int subtype, so
JSON true/false count as 1/0. -/
def rowLatency (row : Obj) : Option ℚ :=
  match dictGet row "latency_ms" with
  | some (.num q) => some q
  | some (.bool b) => some (if b then 1 else 0)
  | _ => none

/-- The severity statement group of the `consume` loop body:
`isinstance(severity, str)` guards the lowercased count bump. -/
def consumeSeverity (s : StatsAggregator) (row : Obj) : StatsAggregator :=
  match dictGet row "severity" with
  | some (.str sev) => { s with by_severity := dictIncr s.by_severity (pyLower sev) }
  | _ => s

/-- The service statement group of the `consume` loop body. -/
def consumeService (s : StatsAggregator) (row : Obj) : StatsAggregator :=
  match dictGet row "service" with
  | some (.str svc) => { s with by_service := dictIncr s.by_service (pyLower svc) }
  | _ => s

/-- The time-range statement group of the `consume` loop body: fold the
record timestamp into the running min/max, seeding both from the first
one. -/
def consumeTime (s : StatsAggregator) (row : Obj) : StatsAggregator :=
  match rowInstant row with
  | some t =>
    { s with
      start_time := some (match s.start_time with | none => t | some st => min t st)
      end_time := some (match s.end_time with | none => t | some en => max t en) }
  | none => s

/-- The latency statement group of the `consume` loop body. -/
def consumeLatency (s : StatsAggregator) (row : Obj) : StatsAggregator :=
  match rowLatency row with
  | some q =>
    { s with
      latency_count := s.latency_count + 1
      latency_sum := s.latency_sum + q
      latency_min := some (match s.latency_min with | none => q | some m => min q m)
      latency_max := some (match s.latency_max with | none => q | some m => max q m) }
  | none => s

/-- One iteration of `StatsAggregator.consume`: bump `total`, then run the
four statement groups of the loop body in source order. -/
def consumeRow (s : StatsAggregator) (row : Obj) : StatsAggregator :=
  consumeLatency (consumeTime (consumeService (consumeSeverity
    { s with total := s.total + 1 } row) row) row) row

/-- `StatsAggregator.consume` over a finite stream. -/
def consume (s : StatsAggregator) (rows : List Obj) : StatsAggregator :=
  rows.foldl consumeRow s

/-- The dictionary `StatsAggregator.to_dict` returns. `latency_p95` models
the "p95" entry of the "latency_ms" sub-dict that `_eval_alerts` reads
with `.get("p95")`: `to_dict` never writes that key, so the field it
produces is always `none`. -/
structure Snapshot where
  total : Nat
  time_range_start : Option Int
  time_range_end : Option Int
  error_rate : Option ℚ
  service_counts : List (String × Nat)
  severity_counts : List (String × Nat)
  latency_count : Nat
  latency_min : Option ℚ
  latency_max : Option ℚ
  latency_avg : Option ℚ
  latency_p95 : Option ℚ
  deriving DecidableEq, Repr

/-- `StatsAggregator.to_dict`: derives `avg` and `error_rate` at snapshot
time; emits no "p95" key. -/
def to_dict (s : StatsAggregator) : Snapshot :=
  { total := s.total
    time_range_start := s.start_time
    time_range_end := s.end_time
    error_rate :=
      match countGet s.by_severity "error" with
      | some n => some ((n : ℚ) / (s.total : ℚ))
      | none => none
    service_counts := s.by_service
    severity_counts := s.by_severity
    latency_count := s.latency_count
    latency_min := s.latency_min
    latency_max := s.latency_max
    latency_avg := if s.latency_count ≠ 0 then some (s.latency_sum / (s.latency_count : ℚ)) else none
    latency_p95 := none }

/-- `handlers/watch.AlertRule`. -/
structure AlertRule where
  name : String
  type : String
  threshold : ℚ
  deriving DecidableEq, Repr

/-- `handlers/watch.WatchConfig`. -/
structure WatchConfig where
  window_minutes : Nat
  alerts : List AlertRule
  deriving DecidableEq, Repr

/-- One alert message produced by `_eval_alerts`. The Python code renders
it as an f-string; the model keeps the data the string interpolates (rule
name, rule kind, observed value as printed, threshold), which is what the
claims are about. -/
structure AlertMsg where
  rule_name : String
  kind : String
  observed : ℚ
  threshold : ℚ
  deriving DecidableEq, Repr

/-- The loop body of `handlers/watch._eval_alerts`: match on the rule
type; an error_rate rule is skipped when the snapshot error_rate is None
and appends its message on observed >= threshold; a p95_latency rule
reads the "p95" key with .get, skips on None and appends on
observed > threshold; any other rule type falls to the default case and
contributes nothing. -/
def evalStep (stats : Snapshot) (messages : List AlertMsg) (rule : AlertRule) :
    List AlertMsg :=
  match rule.type with
  | "error_rate" =>
    match stats.error_rate with
    | none => messages
    | some er =>
      if er ≥ rule.threshold then
        messages ++ [{ rule_name := rule.name, kind := "error_rate"
                       observed := er * 100, threshold := rule.threshold }]
      else messages
  | "p95_latency" =>
    match stats.latency_p95 with
    | none => messages
    | some p =>
      if p > rule.threshold then
        messages ++ [{ rule_name := rule.name, kind := "p95_latency"
                       observed := p, threshold := rule.threshold }]
      else messages
  | _ => messages

/-- `handlers/watch._eval_alerts`: fold the loop body over the rules in
declaration order, starting from no messages. -/
def eval_alerts (stats : Snapshot) (cfg : WatchConfig) : List AlertMsg :=
  cfg.alerts.foldl (evalStep stats) []

/-- The messages a single rule contributes, written out exactly as the
specification describes the evaluator (skip on undefined data; fire on
errorRate >= threshold, on p95 > threshold strictly; ignore unrecognized
kinds). Used to state that `eval_alerts` refines this per-rule reading. -/
def ruleMessages (stats : Snapshot) (rule : AlertRule) : List AlertMsg :=
  match rule.type with
  | "error_rate" =>
    match stats.error_rate with
    | none => []
    | some er =>
      if er ≥ rule.threshold then
        [{ rule_name := rule.name, kind := "error_rate"
           observed := er * 100, threshold := rule.threshold }]
      else []
  | "p95_latency" =>
    match stats.latency_p95 with
    | none => []
    | some p =>
      if p > rule.threshold then
        [{ rule_name := rule.name, kind := "p95_latency"
           observed := p, threshold := rule.threshold }]
      else []
  | _ => []

/-- The error counters a reader keeps (`LogReader.__init__`). -/
structure ReaderState where
  parse_errors : Nat
  invalid_records : Nat
  deriving DecidableEq, Repr

/-- One input line as the readers see it after `json.loads`: either the
line was not valid JSON, or it decoded to an object. (Lines decoding to
non-object JSON values are outside every claim; `validate_obj` would
raise `TypeError` on the `in` test for them.) -/
inductive Line where
  | parseFail
  | obj (o : Obj)

/-- The shared per-line loop of `FileLogReader._read_file` and
`StdinLogReader._read_stdin`: a JSON parse failure bumps `parse_errors`
and moves on; a validation `ExceptionGroup` bumps `invalid_records` once
and moves on; a validated record is yielded; an uncaught exception
(the non-string-timestamp `TypeError`) aborts iteration with the counters
as they stand. Returns the final counters and the records yielded, or the
counters at the abort. -/
def readLines (parse : String → Option Int) (st : ReaderState) :
    List Line → Except ReaderState (ReaderState × List Obj)
  | [] => .ok (st, [])
  | l :: ls =>
    match l with
    | .parseFail => readLines parse { st with parse_errors := st.parse_errors + 1 } ls
    | .obj o =>
      match validate_obj parse o with
      | .ok o' =>
        match readLines parse st ls with
        | .ok (st', objs) => .ok (st', o' :: objs)
        | .error st' => .error st'
      | .error (.group _) =>
        readLines parse { st with invalid_records := st.invalid_records + 1 } ls
      | .error .typeError => .error st

/-- The core of `handlers/watch.watch` after config loading: apply the
since-filter (the watch window lower bound, now minus window_minutes,
supplied here as an explicit instant since "now" is external input),
aggregate, snapshot, evaluate the rules; a non-empty message list makes
the run exit with status 1 (failure), an empty one prints OK (success). -/
def watchRun (records : List Obj) (since : Option Int) (cfg : WatchConfig) :
    List AlertMsg × Bool :=
  let data := filter_since records since
  let stats := to_dict (consume initAgg data)
  let messages := eval_alerts stats cfg
  (messages, !messages.isEmpty)

/-- A concrete stand-in instance for the external ISO-8601 parser, used
only to instantiate witnesses: it accepts one sample timestamp string.
The theorems never depend on which strings parse. -/
def parse0 : String → Option Int :=
  fun s => if s = "2024-01-01T00:00:00+00:00" then some 1704067200 else none

/-- Whether an optional field value is a Python string. -/
def isStrVal : Option Value → Bool
  | some (.str _) => true
  | _ => false

/-- A consumed record counted under the "error" severity key: its severity
is a string whose lowercase form is "error". -/
def isErrorRow (row : Obj) : Bool :=
  match dictGet row "severity" with
  | some (.str sev) => pyLower sev = "error"
  | _ => false

/-- Sum of the values of a count dict. -/
def sumVals (m : List (String × Nat)) : Nat :=
  (m.map Prod.snd).sum

/-- The stage order the analyze handler applies: service, severity, since,
until. -/
def pipelineStages : List Stage :=
  [Stage.service, Stage.severity, Stage.since, Stage.until']

/-- Sample validated record, used in witnesses. -/
def rowDemo : Obj :=
  [("severity", .str "INFO"), ("timestamp", .dt 5), ("service", .str "api"),
   ("message", .str "m")]

/-- Sample validated error record, used in witnesses. -/
def rowDemo2 : Obj :=
  [("severity", .str "ERROR"), ("timestamp", .dt 9), ("service", .str "db"),
   ("message", .str "n")]

/-- Sample validated record with a non-string severity, used in witnesses. -/
def rowNumSev : Obj :=
  [("severity", .num 3), ("timestamp", .dt 1), ("service", .str "api"),
   ("message", .str "m")]

/-- Sample validated record with a non-string service, used in witnesses. -/
def rowNumSvc : Obj :=
  [("severity", .str "warn"), ("timestamp", .dt 2), ("service", .null),
   ("message", .str "m")]

/-- Sample filter criteria, used in witnesses. -/
def critDemo : FilterCriteria :=
  { services := ["api", "db"], severities := [], since := some 3, until' := some 9 }

/-- A non-canonical stage order, used in witnesses. -/
def permDemo : List Stage :=
  [Stage.until', Stage.since, Stage.severity, Stage.service]

/-- A raw object missing two required fields and carrying an unparseable
timestamp string: three bundled validation failures, used in witnesses. -/
def objMulti : Obj :=
  [("severity", .str "info"), ("timestamp", .str "not-a-date")]

/-- A raw decoded object whose timestamp is a JSON number: present,
unparseable, and not a string. -/
def objNumTs : Obj :=
  [("severity", .str "a"), ("timestamp", .num 42), ("service", .str "b"),
   ("message", .str "m")]

/-- An already-validated record: timestamp normalized to an instant. -/
def objValidated : Obj :=
  [("severity", .str "info"), ("timestamp", .dt 1704067200),
   ("service", .str "a"), ("message", .str "m")]

/-- One record of end-to-end scenario A: severity "error",
latency_ms 101, timestamp inside the watch window. -/
def recA : Obj :=
  [("timestamp", .dt 30), ("service", .str "test-service"),
   ("severity", .str "error"), ("message", .str "this is for a test"),
   ("latency_ms", .num 101)]

/-- The watch config of end-to-end scenario A. -/
def cfgA : WatchConfig :=
  { window_minutes := 60
    alerts := [{ name := "high_error_rate", type := "error_rate", threshold := 1/2 },
               { name := "high_latency", type := "p95_latency", threshold := 100 }] }

/-- End-to-end scenario A run: 100 such records against the watch window
lower bound (instant 0, standing for now minus 60 minutes). -/
def runA : List AlertMsg × Bool :=
  watchRun (List.replicate 100 recA) (some 0) cfgA

theorem applyStage_eq_filter (c : FilterCriteria) (s : Stage) (data : List Obj) :
    applyStage c s data = data.filter (stagePred c s) := by
  cases s
  case service =>
    simp only [applyStage, filter_by_service, filter_by_field]
    by_cases h : c.services.isEmpty
    · rw [if_pos h]
      symm
      rw [List.filter_eq_self]
      intro row _
      simp [stagePred, h]
    · rw [if_neg h]
      apply List.filter_congr
      intro row _
      simp [stagePred, h]
  case severity =>
    simp only [applyStage, filter_by_severity, filter_by_field]
    by_cases h : c.severities.isEmpty
    · rw [if_pos h]
      symm
      rw [List.filter_eq_self]
      intro row _
      simp [stagePred, h]
    · rw [if_neg h]
      apply List.filter_congr
      intro row _
      simp [stagePred, h]
  case since =>
    simp only [applyStage, filter_since]
    cases h : c.since
    · symm
      rw [List.filter_eq_self]
      intro row _
      simp [stagePred, h]
    · apply List.filter_congr
      intro row _
      simp [stagePred, h]
  case until' =>
    simp only [applyStage, filter_until]
    cases h : c.until'
    · symm
      rw [List.filter_eq_self]
      intro row _
      simp [stagePred, h]
    · apply List.filter_congr
      intro row _
      simp [stagePred, h]

theorem applyStages_eq_filter_all (c : FilterCriteria) (stages : List Stage)
    (data : List Obj) :
    applyStages c stages data
      = data.filter (fun row => stages.all (fun s => stagePred c s row)) := by
  induction stages generalizing data with
  | nil =>
    simp only [applyStages, List.foldl_nil, List.all_nil]
    exact (List.filter_true data).symm
  | cons s ss ih =>
    have hstep : applyStages c (s :: ss) data = applyStages c ss (applyStage c s data) := rfl
    rw [hstep, ih, applyStage_eq_filter, List.filter_filter]
    apply List.filter_congr
    intro row _
    simp [List.all_cons, Bool.and_comm]

theorem perm_all {α : Type} (f : α → Bool) {l l' : List α} (h : l.Perm l') :
    l.all f = l'.all f := by
  induction h with
  | nil => rfl
  | cons x _ ih => simp [List.all_cons, ih]
  | swap x y l => simp [List.all_cons, ← Bool.and_assoc, Bool.and_comm]
  | trans _ _ ih1 ih2 => rw [ih1, ih2]

/-- Claim C5: for every finite stream of records and every criteria,
applying the four filter stages in any of the 24 permutations yields the
same surviving records as the pipeline order, and the survivors keep the
relative order of the input (the result is a sublist of the input). -/
theorem filter_stages_perm (c : FilterCriteria) (perm : List Stage) (data : List Obj)
    (h : perm.Perm pipelineStages) :
    applyStages c perm data = applyStages c pipelineStages data
      ∧ (applyStages c perm data).Sublist data := by
  constructor
  · rw [applyStages_eq_filter_all, applyStages_eq_filter_all]
    apply List.filter_congr
    intro row _
    exact perm_all (fun s => stagePred c s row) h
  · rw [applyStages_eq_filter_all]
    exact List.filter_sublist data

/-- Witness for C5 at a concrete permutation, criteria and stream. -/
theorem filter_stages_perm_witness :
    permDemo.Perm pipelineStages
      ∧ (applyStages critDemo permDemo [rowDemo, rowDemo2, rowNumSvc]
            = applyStages critDemo pipelineStages [rowDemo, rowDemo2, rowNumSvc]
          ∧ (applyStages critDemo permDemo [rowDemo, rowDemo2, rowNumSvc]).Sublist
              [rowDemo, rowDemo2, rowNumSvc]) :=
  ⟨by decide, filter_stages_perm critDemo permDemo [rowDemo, rowDemo2, rowNumSvc] (by decide)⟩

/-- Claim C6: for a validated record (timestamp an instant `t`), the since
filter keeps it iff `t` is at or after the bound, the until filter keeps
it iff `t` is at or before the bound (both inclusive, so equality passes),
and an unset bound keeps every record. -/
theorem since_until_semantics (data : List Obj) (row : Obj) (t s u : Int)
    (h : dictGet row "timestamp" = some (.dt t)) :
    (row ∈ filter_since data (some s) ↔ row ∈ data ∧ s ≤ t)
      ∧ (row ∈ filter_until data (some u) ↔ row ∈ data ∧ t ≤ u)
      ∧ filter_since data none = data
      ∧ filter_until data none = data := by
  refine ⟨?_, ?_, rfl, rfl⟩
  · simp [filter_since, List.mem_filter, h, ge_iff_le]
  · simp [filter_until, List.mem_filter, h]

/-- Witness for C6: a record whose timestamp equals both bounds passes
both filters. -/
theorem since_until_semantics_witness :
    dictGet rowDemo "timestamp" = some (.dt 5)
      ∧ ((rowDemo ∈ filter_since [rowDemo] (some 5) ↔ rowDemo ∈ [rowDemo] ∧ (5:Int) ≤ 5)
          ∧ (rowDemo ∈ filter_until [rowDemo] (some 5) ↔ rowDemo ∈ [rowDemo] ∧ (5:Int) ≤ 5)
          ∧ filter_since [rowDemo] none = [rowDemo]
          ∧ filter_until [rowDemo] none = [rowDemo]) :=
  ⟨rfl, since_until_semantics [rowDemo] rowDemo 5 5 5 rfl⟩

theorem evalStep_eq_append (stats : Snapshot) (acc : List AlertMsg) (rule : AlertRule) :
    evalStep stats acc rule = acc ++ ruleMessages stats rule := by
  unfold evalStep ruleMessages
  split
  · cases stats.error_rate with
    | none => simp
    | some er => by_cases hc : er ≥ rule.threshold <;> simp [hc]
  · cases stats.latency_p95 with
    | none => simp
    | some p => by_cases hc : p > rule.threshold <;> simp [hc]
  · simp

theorem eval_alerts_foldl (stats : Snapshot) (rules : List AlertRule)
    (acc : List AlertMsg) :
    rules.foldl (evalStep stats) acc = acc ++ rules.flatMap (ruleMessages stats) := by
  induction rules generalizing acc with
  | nil => simp
  | cons r rs ih =>
    rw [List.foldl_cons, ih, evalStep_eq_append, List.flatMap_cons, List.append_assoc]

/-- Claim C2: the alert evaluator processes the rules in declaration
order, each rule contributing exactly the messages `ruleMessages`
describes: an error_rate rule is skipped when the snapshot error rate is
undefined and fires iff it is at least the threshold; a p95_latency rule
is skipped when the snapshot p95 is undefined and fires iff it strictly
exceeds the threshold; any other rule kind contributes nothing and raises
no error. -/
theorem eval_alerts_eq_flatMap (stats : Snapshot) (cfg : WatchConfig) :
    eval_alerts stats cfg = cfg.alerts.flatMap (ruleMessages stats) := by
  unfold eval_alerts
  rw [eval_alerts_foldl]
  simp

theorem consumeSeverity_total (s : StatsAggregator) (row : Obj) :
    (consumeSeverity s row).total = s.total := by
  unfold consumeSeverity
  split <;> rfl

theorem consumeService_total (s : StatsAggregator) (row : Obj) :
    (consumeService s row).total = s.total := by
  unfold consumeService
  split <;> rfl

theorem consumeTime_total (s : StatsAggregator) (row : Obj) :
    (consumeTime s row).total = s.total := by
  unfold consumeTime
  split <;> rfl

theorem consumeLatency_total (s : StatsAggregator) (row : Obj) :
    (consumeLatency s row).total = s.total := by
  unfold consumeLatency
  split <;> rfl

theorem consumeService_by_severity (s : StatsAggregator) (row : Obj) :
    (consumeService s row).by_severity = s.by_severity := by
  unfold consumeService
  split <;> rfl

theorem consumeTime_by_severity (s : StatsAggregator) (row : Obj) :
    (consumeTime s row).by_severity = s.by_severity := by
  unfold consumeTime
  split <;> rfl

theorem consumeLatency_by_severity (s : StatsAggregator) (row : Obj) :
    (consumeLatency s row).by_severity = s.by_severity := by
  unfold consumeLatency
  split <;> rfl

theorem consumeSeverity_by_service (s : StatsAggregator) (row : Obj) :
    (consumeSeverity s row).by_service = s.by_service := by
  unfold consumeSeverity
  split <;> rfl

theorem consumeTime_by_service (s : StatsAggregator) (row : Obj) :
    (consumeTime s row).by_service = s.by_service := by
  unfold consumeTime
  split <;> rfl

theorem consumeLatency_by_service (s : StatsAggregator) (row : Obj) :
    (consumeLatency s row).by_service = s.by_service := by
  unfold consumeLatency
  split <;> rfl

theorem consumeSeverity_by_severity (s : StatsAggregator) (row : Obj) :
    (consumeSeverity s row).by_severity =
      match dictGet row "severity" with
      | some (.str sev) => dictIncr s.by_severity (pyLower sev)
      | _ => s.by_severity := by
  cases hd : dictGet row "severity" with
  | none => simp [consumeSeverity, hd]
  | some v => cases v <;> simp [consumeSeverity, hd]

theorem consumeService_by_service (s : StatsAggregator) (row : Obj) :
    (consumeService s row).by_service =
      match dictGet row "service" with
      | some (.str svc) => dictIncr s.by_service (pyLower svc)
      | _ => s.by_service := by
  cases hd : dictGet row "service" with
  | none => simp [consumeService, hd]
  | some v => cases v <;> simp [consumeService, hd]

theorem consumeRow_total (s : StatsAggregator) (row : Obj) :
    (consumeRow s row).total = s.total + 1 := by
  unfold consumeRow
  rw [consumeLatency_total, consumeTime_total, consumeService_total, consumeSeverity_total]

theorem consumeRow_by_severity (s : StatsAggregator) (row : Obj) :
    (consumeRow s row).by_severity =
      match dictGet row "severity" with
      | some (.str sev) => dictIncr s.by_severity (pyLower sev)
      | _ => s.by_severity := by
  unfold consumeRow
  rw [consumeLatency_by_severity, consumeTime_by_severity, consumeService_by_severity,
      consumeSeverity_by_severity]

theorem consumeRow_by_service (s : StatsAggregator) (row : Obj) :
    (consumeRow s row).by_service =
      match dictGet row "service" with
      | some (.str svc) => dictIncr s.by_service (pyLower svc)
      | _ => s.by_service := by
  unfold consumeRow
  rw [consumeLatency_by_service, consumeTime_by_service, consumeService_by_service,
      consumeSeverity_by_service]

theorem consume_total (s : StatsAggregator) (rows : List Obj) :
    (consume s rows).total = s.total + rows.length := by
  induction rows generalizing s with
  | nil => rfl
  | cons r rs ih =>
    have : consume s (r :: rs) = consume (consumeRow s r) rs := rfl
    rw [this, ih, consumeRow_total, List.length_cons]
    omega

theorem sumVals_dictIncr (m : List (String × Nat)) (k : String) :
    sumVals (dictIncr m k) = sumVals m + 1 := by
  induction m with
  | nil => rfl
  | cons p rest ih =>
    obtain ⟨k', v⟩ := p
    by_cases h : k' = k <;> simp [dictIncr, h, sumVals] at ih ⊢ <;> omega

theorem sumVals_consumeRow_by_severity (s : StatsAggregator) (row : Obj) :
    sumVals (consumeRow s row).by_severity ≤ sumVals s.by_severity + 1 := by
  rw [consumeRow_by_severity]
  cases hd : dictGet row "severity" with
  | none => simp
  | some v => cases v <;> simp [sumVals_dictIncr]

theorem sumVals_consumeRow_by_service (s : StatsAggregator) (row : Obj) :
    sumVals (consumeRow s row).by_service ≤ sumVals s.by_service + 1 := by
  rw [consumeRow_by_service]
  cases hd : dictGet row "service" with
  | none => simp
  | some v => cases v <;> simp [sumVals_dictIncr]

theorem sumVals_consume_by_severity (s : StatsAggregator) (rows : List Obj) :
    sumVals (consume s rows).by_severity ≤ sumVals s.by_severity + rows.length := by
  induction rows generalizing s with
  | nil => simp [consume]
  | cons r rs ih =>
    have hstep : consume s (r :: rs) = consume (consumeRow s r) rs := rfl
    rw [hstep]
    calc sumVals (consume (consumeRow s r) rs).by_severity
        ≤ sumVals (consumeRow s r).by_severity + rs.length := ih _
      _ ≤ sumVals s.by_severity + 1 + rs.length := by
          have := sumVals_consumeRow_by_severity s r
          omega
      _ = sumVals s.by_severity + (r :: rs).length := by
          simp [List.length_cons]
          omega

theorem sumVals_consume_by_service (s : StatsAggregator) (rows : List Obj) :
    sumVals (consume s rows).by_service ≤ sumVals s.by_service + rows.length := by
  induction rows generalizing s with
  | nil => simp [consume]
  | cons r rs ih =>
    have hstep : consume s (r :: rs) = consume (consumeRow s r) rs := rfl
    rw [hstep]
    calc sumVals (consume (consumeRow s r) rs).by_service
        ≤ sumVals (consumeRow s r).by_service + rs.length := ih _
      _ ≤ sumVals s.by_service + 1 + rs.length := by
          have := sumVals_consumeRow_by_service s r
          omega
      _ = sumVals s.by_service + (r :: rs).length := by
          simp [List.length_cons]
          omega

theorem countGet_dictIncr_self (m : List (String × Nat)) (k : String) :
    countGet (dictIncr m k) k = some ((countGet m k).getD 0 + 1) := by
  induction m with
  | nil => simp [dictIncr, countGet]
  | cons p rest ih =>
    obtain ⟨k', v⟩ := p
    by_cases h : k' = k <;> simp [dictIncr, countGet, h, ih]

theorem countGet_dictIncr_ne (m : List (String × Nat)) (k' k : String) (h : k' ≠ k) :
    countGet (dictIncr m k') k = countGet m k := by
  induction m with
  | nil => simp [dictIncr, countGet, h]
  | cons p rest ih =>
    obtain ⟨k0, v⟩ := p
    by_cases h0 : k0 = k' <;> simp [dictIncr, countGet, h0, ih]
    subst h0
    simp [h]

theorem countGet_consumeRow_error (s : StatsAggregator) (row : Obj) :
    countGet (consumeRow s row).by_severity "error" =
      if isErrorRow row then some ((countGet s.by_severity "error").getD 0 + 1)
      else countGet s.by_severity "error" := by
  rw [consumeRow_by_severity]
  cases hd : dictGet row "severity" with
  | none => simp [isErrorRow, hd]
  | some v =>
    cases v with
    | str sev =>
      by_cases hsev : pyLower sev = "error"
      · simp [isErrorRow, hd, hsev, countGet_dictIncr_self]
      · simp [isErrorRow, hd, hsev, countGet_dictIncr_ne _ _ _ hsev]
    | num q => simp [isErrorRow, hd]
    | bool b => simp [isErrorRow, hd]
    | null => simp [isErrorRow, hd]
    | dt t => simp [isErrorRow, hd]

theorem countGet_consume_error (s : StatsAggregator) (rows : List Obj) :
    countGet (consume s rows).by_severity "error" =
      match countGet s.by_severity "error" with
      | some n => some (n + rows.countP isErrorRow)
      | none =>
        if rows.countP isErrorRow = 0 then none
        else some (rows.countP isErrorRow) := by
  induction rows generalizing s with
  | nil =>
    cases hc : countGet s.by_severity "error" <;> simp [consume, hc]
  | cons r rs ih =>
    have hstep : consume s (r :: rs) = consume (consumeRow s r) rs := rfl
    rw [hstep, ih, countGet_consumeRow_error]
    by_cases hr : isErrorRow r
    · rw [if_pos hr]
      cases hc : countGet s.by_severity "error" with
      | none =>
        simp [List.countP_cons, hr, hc]
        omega
      | some n =>
        simp [List.countP_cons, hr, hc]
        omega
    · rw [if_neg hr]
      cases hc : countGet s.by_severity "error" with
      | none => simp [List.countP_cons, hr, hc]
      | some n => simp [List.countP_cons, hr, hc]

/-- Claim C7: the snapshot error rate is undefined when no consumed record
has severity "error" (case-insensitively), and otherwise equals the count
of such records divided by the total number of consumed records, derived
at snapshot time. -/
theorem error_rate_characterization (rows : List Obj)
    (h : rows.all ValidatedRow = true) :
    (to_dict (consume initAgg rows)).error_rate =
      if rows.countP isErrorRow = 0 then (none : Option ℚ)
      else some ((rows.countP isErrorRow : ℚ) / (rows.length : ℚ)) := by
  have hcnt := countGet_consume_error initAgg rows
  have hnil : countGet initAgg.by_severity "error" = none := rfl
  rw [hnil] at hcnt
  simp only [] at hcnt
  have htot : (consume initAgg rows).total = rows.length := by
    rw [consume_total]
    have e : initAgg.total = 0 := rfl
    omega
  unfold to_dict
  simp only []
  rw [hcnt, htot]
  by_cases hc : rows.countP isErrorRow = 0 <;> simp [hc]

/-- Witness for C7 on a two-record stream with one error record. -/
theorem error_rate_characterization_witness :
    [rowDemo2, rowDemo].all ValidatedRow = true
      ∧ (to_dict (consume initAgg [rowDemo2, rowDemo])).error_rate =
          (if [rowDemo2, rowDemo].countP isErrorRow = 0 then (none : Option ℚ)
           else some (([rowDemo2, rowDemo].countP isErrorRow : ℚ)
                        / (([rowDemo2, rowDemo] : List Obj).length : ℚ))) :=
  ⟨by decide, error_rate_characterization [rowDemo2, rowDemo] (by decide)⟩

/-- Claim C8: consuming an empty record stream is not an error; every
snapshot field degrades to its empty or undefined form. -/
theorem empty_stream_snapshot :
    to_dict (consume initAgg []) =
      { total := 0, time_range_start := none, time_range_end := none,
        error_rate := none, service_counts := [], severity_counts := [],
        latency_count := 0, latency_min := none, latency_max := none,
        latency_avg := none, latency_p95 := none } := rfl

/-- Claim C10: after consuming any stream, the sum of the severity counts
and the sum of the service counts are each at most the total; a record
whose severity (resp. service) is not a string bumps the total but leaves
the corresponding count map unchanged, so the total can strictly exceed
either sum. -/
theorem count_sums_le_total (rows : List Obj) (s : StatsAggregator) (rowA rowB : Obj)
    (hts : rows.all (fun r => (rowInstant r).isSome) = true)
    (hA : isStrVal (dictGet rowA "severity") = false)
    (hB : isStrVal (dictGet rowB "service") = false) :
    (sumVals (consume initAgg rows).by_severity ≤ (consume initAgg rows).total
      ∧ sumVals (consume initAgg rows).by_service ≤ (consume initAgg rows).total)
    ∧ ((consumeRow s rowA).by_severity = s.by_severity
        ∧ (consumeRow s rowA).total = s.total + 1)
    ∧ ((consumeRow s rowB).by_service = s.by_service
        ∧ (consumeRow s rowB).total = s.total + 1) := by
  refine ⟨⟨?_, ?_⟩, ⟨?_, consumeRow_total s rowA⟩, ⟨?_, consumeRow_total s rowB⟩⟩
  · have h1 := sumVals_consume_by_severity initAgg rows
    have h2 := consume_total initAgg rows
    have e1 : sumVals initAgg.by_severity = 0 := rfl
    have e2 : initAgg.total = 0 := rfl
    omega
  · have h1 := sumVals_consume_by_service initAgg rows
    have h2 := consume_total initAgg rows
    have e1 : sumVals initAgg.by_service = 0 := rfl
    have e2 : initAgg.total = 0 := rfl
    omega
  · rw [consumeRow_by_severity]
    cases hd : dictGet rowA "severity" with
    | none => simp
    | some v =>
      cases v <;> simp_all [isStrVal]
  · rw [consumeRow_by_service]
    cases hd : dictGet rowB "service" with
    | none => simp
    | some v =>
      cases v <;> simp_all [isStrVal]

/-- Witness for C10 on a concrete stream containing records with
non-string severity and service values. -/
theorem count_sums_le_total_witness :
    ([rowNumSev, rowNumSvc, rowDemo2].all (fun r => (rowInstant r).isSome) = true
      ∧ isStrVal (dictGet rowNumSev "severity") = false
      ∧ isStrVal (dictGet rowNumSvc "service") = false)
    ∧ ((sumVals (consume initAgg [rowNumSev, rowNumSvc, rowDemo2]).by_severity
          ≤ (consume initAgg [rowNumSev, rowNumSvc, rowDemo2]).total
        ∧ sumVals (consume initAgg [rowNumSev, rowNumSvc, rowDemo2]).by_service
            ≤ (consume initAgg [rowNumSev, rowNumSvc, rowDemo2]).total)
      ∧ ((consumeRow initAgg rowNumSev).by_severity = initAgg.by_severity
          ∧ (consumeRow initAgg rowNumSev).total = initAgg.total + 1)
      ∧ ((consumeRow initAgg rowNumSvc).by_service = initAgg.by_service
          ∧ (consumeRow initAgg rowNumSvc).total = initAgg.total + 1)) :=
  ⟨⟨by decide, by decide, by decide⟩,
    count_sums_le_total [rowNumSev, rowNumSvc, rowDemo2] initAgg rowNumSev rowNumSvc
      (by decide) (by decide) (by decide)⟩

/-- Claim C3 (code bug): on an object whose timestamp is present but a
JSON number — present and unparseable — validation does not return the
documented collection of field failures: the uncaught `TypeError` from
`datetime.fromisoformat` escapes instead (only `ValueError` is caught), so
no invalid-timestamp failure is ever collected for it. -/
theorem validate_numeric_timestamp_typeerror :
    validate_obj parse0 objNumTs = .error .typeError
      ∧ ∀ fails : List VFail, validate_obj parse0 objNumTs ≠ .error (.group fails) := by
  refine ⟨rfl, ?_⟩
  intro fails h
  simp [validate_obj, validateFields, objNumTs, dictGet, REQUIRED_FIELDS, parse0] at h

/-- Claim C4 (code bug): re-validating an already-validated record (its
timestamp is a parsed instant, not a string) does not succeed unchanged:
`datetime.fromisoformat` rejects the non-string with a `TypeError` that
`validate_obj` does not catch. -/
theorem revalidate_validated_typeerror :
    ValidatedRow objValidated = true
      ∧ validate_obj parse0 objValidated = .error .typeError
      ∧ validate_obj parse0 objValidated ≠ .ok objValidated := by
  refine ⟨rfl, rfl, ?_⟩
  intro h
  simp [validate_obj, validateFields, objValidated, dictGet, REQUIRED_FIELDS] at h

/-- Claim C9: a decoded line whose object fails schema validation (with
any bundle of field failures) bumps `invalid_records` by exactly one, is
not yielded, and iteration continues with the remaining lines; a line
that fails JSON parsing instead bumps `parse_errors` by one and iteration
likewise continues. -/
theorem reader_error_counters (parse : String → Option Int) (st : ReaderState)
    (o : Obj) (ls : List Line) (fails : List VFail)
    (hv : validate_obj parse o = .error (.group fails)) :
    readLines parse st (Line.obj o :: ls)
        = readLines parse { st with invalid_records := st.invalid_records + 1 } ls
      ∧ readLines parse st (Line.parseFail :: ls)
          = readLines parse { st with parse_errors := st.parse_errors + 1 } ls := by
  constructor
  · simp [readLines, hv]
  · rfl

/-- Witness for C9: a record bundling three distinct failures (two missing
fields and a bad timestamp) counts exactly once. -/
theorem reader_error_counters_witness :
    validate_obj parse0 objMulti
        = .error (.group [.invalidTimestamp, .missing "service", .missing "message"])
      ∧ (readLines parse0 ⟨0, 0⟩ [Line.obj objMulti] = readLines parse0 ⟨0, 0 + 1⟩ []
          ∧ readLines parse0 ⟨0, 0⟩ [Line.parseFail] = readLines parse0 ⟨0 + 1, 0⟩ []) :=
  ⟨rfl, reader_error_counters parse0 ⟨0, 0⟩ objMulti []
          [.invalidTimestamp, .missing "service", .missing "message"] rfl⟩

theorem countP_replicate {α : Type} (p : α → Bool) (n : Nat) (a : α) :
    (List.replicate n a).countP p = if p a then n else 0 := by
  induction n with
  | zero => simp
  | succ m ih =>
    rw [List.replicate_succ, List.countP_cons, ih]
    by_cases h : p a <;> simp [h]

/-- Claim C1 (code bug): in end-to-end scenario A (100 validated records,
all severity "ERROR", all latency_ms 101, inside the watch window, with
the high_error_rate/high_latency config) only the error-rate rule fires --
the snapshot carries no p95 value, so the p95_latency rule is skipped --
and the run still signals failure because the message list is non-empty. -/
theorem scenario_a_only_error_rate_fires :
    runA = ([{ rule_name := "high_error_rate", kind := "error_rate",
               observed := 100, threshold := 1/2 }], true)
      ∧ (to_dict (consume initAgg (List.replicate 100 recA))).latency_p95 = none := by
  refine ⟨?_, rfl⟩
  have hfilter : filter_since (List.replicate 100 recA) (some 0)
      = List.replicate 100 recA := by
    apply List.filter_eq_self.mpr
    intro row hrow
    rw [List.eq_of_mem_replicate hrow]
    decide
  have hcountP : (List.replicate 100 recA).countP isErrorRow = 100 := by
    rw [countP_replicate]
    have he : isErrorRow recA = true := by decide
    rw [he]
    rfl
  have htot : (consume initAgg (List.replicate 100 recA)).total = 100 := by
    rw [consume_total, List.length_replicate]
    rfl
  have hcnt : countGet (consume initAgg (List.replicate 100 recA)).by_severity "error"
      = some 100 := by
    have h := countGet_consume_error initAgg (List.replicate 100 recA)
    rw [show countGet initAgg.by_severity "error" = none from rfl] at h
    simp only [] at h
    rw [hcountP] at h
    simpa using h
  have her : (to_dict (consume initAgg (List.replicate 100 recA))).error_rate
      = some 1 := by
    simp only [to_dict]
    rw [hcnt, htot]
    norm_num
  have hp95 : (to_dict (consume initAgg (List.replicate 100 recA))).latency_p95
      = none := rfl
  have h1 : ∀ S : Snapshot, S.error_rate = some 1 →
      ruleMessages S { name := "high_error_rate", type := "error_rate", threshold := 1/2 }
        = [{ rule_name := "high_error_rate", kind := "error_rate",
             observed := 100, threshold := 1/2 }] := by
    intro S hS
    simp [ruleMessages, hS]
    norm_num
  have h2 : ∀ S : Snapshot, S.latency_p95 = none →
      ruleMessages S { name := "high_latency", type := "p95_latency", threshold := 100 }
        = [] := by
    intro S hS
    simp [ruleMessages, hS]
  have hmsgs : eval_alerts (to_dict (consume initAgg (List.replicate 100 recA))) cfgA
      = [{ rule_name := "high_error_rate", kind := "error_rate",
           observed := 100, threshold := 1/2 }] := by
    have hal : cfgA.alerts
        = [{ name := "high_error_rate", type := "error_rate", threshold := 1/2 },
           { name := "high_latency", type := "p95_latency", threshold := 100 }] := rfl
    unfold eval_alerts
    rw [eval_alerts_foldl, hal, List.flatMap_cons, List.flatMap_cons, List.flatMap_nil,
        h1 _ her, h2 _ hp95]
    rfl
  have hrun : watchRun (List.replicate 100 recA) (some 0) cfgA
      = (eval_alerts (to_dict (consume initAgg
            (filter_since (List.replicate 100 recA) (some 0)))) cfgA,
         !(eval_alerts (to_dict (consume initAgg
            (filter_since (List.replicate 100 recA) (some 0)))) cfgA).isEmpty) := rfl
  show watchRun (List.replicate 100 recA) (some 0) cfgA = _
  rw [hrun, hfilter, hmsgs]
  rfl
